import Mathlib

/-!
Shallow embedding of the route-nest-backend trip service core.

The definitions below are transcribed from the repository's JavaScript
source:
  * `src/src/models/TripData.js` — the mongoose schema (field constraints)
    and the pre-save stop-id hook;
  * `src/src/server.js` — the Express handlers for stop add / update /
    delete / reorder and the haversine helper `calculateDistance`;
  * `scripts/migrate-to-new-schema.js` — the migration's stats block and
    its own copy of the haversine helper.

JS numbers are modelled as rationals (`ℚ`) where the code only compares
and adds, and as reals (`ℝ`) for the trigonometric haversine helper.
Absent JS fields (`undefined`) are modelled as `Option`.
-/

/-! ### Stops as handled by the server's stop-management endpoints

`server.js` keeps each stop as a plain object carrying (among other
fields) a numeric `id`, an `order`, and payload fields.  For the
reorder / delete endpoints only `id` and `order` are touched; the rest of
the object travels unchanged, which we represent with a `name` payload
field. -/

structure RStop where
  id : Nat
  name : String
  order : Nat
deriving DecidableEq, Repr

/-- Lookup `stopMap.get(stopId)` where
`stopMap = new Map(trip.stops.map((stop) => [stop.id, stop]))`: a JS `Map`
built from a list keeps the **last** entry for a duplicated key, so the
lookup finds the last stop with that id. -/
def stopMapGet (stops : List RStop) (stopId : Nat) : Option RStop :=
  stops.reverse.find? (fun s => s.id = stopId)

/-- The body of `stopIds.map(...)` in `PUT /api/trips/:id/stops/reorder`
(`src/src/server.js` lines 363–374): walk the requested ids left to
right; a resolved stop gets `order = index + 1` and is placed at that
position; the first unresolved id aborts the whole map with
`Error("Stop with ID ${stopId} not found")` (the id is the error value).
`k` is the number of ids already consumed. -/
def reorderGo (stops : List RStop) : List Nat → Nat → Except Nat (List RStop)
  | [], _ => .ok []
  | i :: rest, k =>
    match stopMapGet stops i with
    | some s =>
      match reorderGo stops rest (k + 1) with
      | .ok tl => .ok ({ s with order := k + 1 } :: tl)
      | .error e => .error e
    | none => .error i

/-- The `trip.stops = stopIds.map(...)` assignment of the reorder
endpoint.  `.ok` is the new stops array; `.error i` is the thrown
`Stop with ID i not found`. -/
def reorderStops (stops : List RStop) (stopIds : List Nat) :
    Except Nat (List RStop) :=
  reorderGo stops stopIds 0

/-- The reorder endpoint as a whole, seen from the persisted document:
on success the trip is saved with the rebuilt stops and the response has
no error; on a thrown error the handler answers 400 before `trip.save()`
is ever reached, so the persisted stops are the original ones.
Result: (persisted stops, reported error id if any). -/
def reorderPersist (stops : List RStop) (stopIds : List Nat) :
    List RStop × Option Nat :=
  match reorderStops stops stopIds with
  | .ok newStops => (newStops, none)
  | .error e => (stops, some e)

/-! ### Delete stop (`DELETE /api/trips/:id/stops/:stopId`,
`src/src/server.js` lines 323–351) -/

/-- Index of the first element satisfying `p`, as JS
`array.findIndex(...)` computes it (`none` models the JS result `-1`). -/
def jsFindIndex (p : RStop → Bool) : List RStop → Option Nat
  | [] => none
  | s :: rest => if p s then some 0 else (jsFindIndex p rest).map (· + 1)

/-- Removal of the element at one index, as `array.splice(idx, 1)` does:
all other elements keep their relative order. -/
def spliceOne : List RStop → Nat → List RStop
  | [], _ => []
  | _ :: rest, 0 => rest
  | s :: rest, n + 1 => s :: spliceOne rest n

/-- Renumbering pass run after the splice:
`trip.stops.forEach((stop, index) => { stop.order = index + 1 })`.
`k` is the number of stops already renumbered. -/
def renumberGo : Nat → List RStop → List RStop
  | _, [] => []
  | k, s :: rest => { s with order := k + 1 } :: renumberGo (k + 1) rest

/-- The forEach renumbering starting at index 0. -/
def renumberStops (stops : List RStop) : List RStop :=
  renumberGo 0 stops

/-- Deletion endpoint body: `findIndex` of the first stop whose `id`
matches, 404 (`none`) when absent, otherwise `splice(stopIndex, 1)`
followed by the renumbering pass, then save. -/
def deleteStop (stops : List RStop) (stopId : Nat) : Option (List RStop) :=
  match jsFindIndex (fun s => s.id = stopId) stops with
  | none => none
  | some idx => some (renumberStops (spliceOne stops idx))

/-- Projection of a stop to its payload (everything but `order`). -/
def stopPayload (s : RStop) : Nat × String := (s.id, s.name)

/-! ### The mongoose schema of `src/src/models/TripData.js`

The model file in `src/` holds the *old* simple schema: a stop has a
numeric `id` (optional), required `name`, required `lat` in `[-90, 90]`,
required `lng` in `[-180, 180]` and a required `plannedTime` date; the
trip has a required trimmed `name` (1–100 chars), a required
non-negative numeric `length`, a `createdAt` date, the stops array and a
`routes` array of coordinate-pair lists.  No enum-typed field exists in
this schema.  Absent (`undefined`) fields are `none`. -/

structure StopInput where
  id : Option Nat := none
  name : Option String := none
  lat : Option ℚ := none
  lng : Option ℚ := none
  plannedTime : Option Int := none
deriving DecidableEq, Repr

/-- Stats sub-record as the migration script authors it (the only place
in the repository where a stats object is produced,
`scripts/migrate-to-new-schema.js` lines 107–115). -/
structure MigStats where
  totalDistance : ℚ
  estimatedDuration : ℚ
  stopCount : Nat
  averageStopDuration : ℚ
  transportModes : List String
  difficultyLevel : String
deriving DecidableEq, Repr

/-- Trip document as the persistence layer sees it: the schema fields of
`TripData.js` plus an optional `stats` sub-record (documents written by
the migration carry one; the schema itself never computes it). -/
structure TripDoc where
  name : Option String := none
  length : Option ℚ := none
  stops : List StopInput := []
  stats : Option MigStats := none
deriving DecidableEq, Repr

/-! ### Field validation (mongoose validators of `TripData.js`)

Mongoose collects every failing path of a document into one
`ValidationError` keyed by field path (subdocument paths look like
`stops.0.lat`), and `save()` / `runValidators` reject the whole write
when that set is non-empty. -/

/-- Whitespace trimming as the mongoose `trim: true` setter performs it
(drop leading and trailing whitespace). -/
def jsTrim (s : String) : String :=
  ⟨((s.data.dropWhile Char.isWhitespace).reverse.dropWhile
      Char.isWhitespace).reverse⟩

/-- Field paths of a single stop that fail their schema validators:
`name` required (the `trim` setter runs first, so a whitespace-only name
fails `required`), `lat` required with `min: -90, max: 90`, `lng`
required with `min: -180, max: 180`, `plannedTime` required. -/
def stopFieldErrors (s : StopInput) : List String :=
  (match s.name with
    | none => ["name"]
    | some n => if jsTrim n = "" then ["name"] else [])
  ++ (match s.lat with
    | none => ["lat"]
    | some v => if v < -90 ∨ 90 < v then ["lat"] else [])
  ++ (match s.lng with
    | none => ["lng"]
    | some v => if v < -180 ∨ 180 < v then ["lng"] else [])
  ++ (match s.plannedTime with
    | none => ["plannedTime"]
    | some _ => [])

/-- Trip-level failing paths: `name` required with `trim`,
`minlength: 1`, `maxlength: 100` (after trimming, an empty name already
fails `required`, so `minlength` adds nothing), and `length` required,
`min: 0` (its custom validator repeats the same non-negativity check). -/
def tripFieldErrors (t : TripDoc) : List String :=
  (match t.name with
    | none => ["name"]
    | some n =>
      if jsTrim n = "" then ["name"]
      else if 100 < n.length then ["name"] else [])
  ++ (match t.length with
    | none => ["length"]
    | some v => if v < 0 then ["length"] else [])

/-- Mongoose subdocument error path, e.g. `stops.0.lat`. -/
def stopPath (i : Nat) (f : String) : String :=
  "stops." ++ toString i ++ "." ++ f

/-- Failing paths contributed by the stops array, with `i` the index of
the first stop still to scan. -/
def stopsErrorsGo : Nat → List StopInput → List String
  | _, [] => []
  | i, s :: rest => (stopFieldErrors s).map (stopPath i) ++ stopsErrorsGo (i + 1) rest

/-- All failing paths of a trip document. -/
def tripErrors (t : TripDoc) : List String :=
  tripFieldErrors t ++ stopsErrorsGo 0 t.stops

/-! ### The pre-save hook of `TripData.js` (lines 97–106)

When the stops array was modified this save, each stop with a falsy `id`
(JS: `undefined` or `0`) gets `Date.now() + index`.  `Date.now()` is read
once per stop but the loop is synchronous, so we model one `now`. -/

/-- Truthiness test of `!stop.id`: absent or zero counts as missing. -/
def jsIdMissing (id : Option Nat) : Bool :=
  match id with
  | none => true
  | some v => v = 0

/-- The forEach of the hook with `i` the index of the first remaining
stop: `if (!stop.id) stop.id = Date.now() + index`. -/
def assignIdsGo (now : Nat) : Nat → List StopInput → List StopInput
  | _, [] => []
  | i, s :: rest =>
    (if jsIdMissing s.id then { s with id := some (now + i) } else s)
      :: assignIdsGo now (i + 1) rest

/-- The id-assignment pass over the whole stops array. -/
def assignStopIds (now : Nat) (stops : List StopInput) : List StopInput :=
  assignIdsGo now 0 stops

/-- Everything the pre-save hook does to a document: when
`isModified("stops")` holds it runs the id-assignment pass; no other
field — in particular not `stats` — is read or written. -/
def preSaveTrip (now : Nat) (t : TripDoc) (stopsModified : Bool) : TripDoc :=
  if stopsModified then { t with stops := assignStopIds now t.stops } else t

/-- A `save()` as mongoose performs it: validation first (rejecting the
whole document with the list of failing paths), then the pre-save hook,
then the write. -/
def saveValidated (now : Nat) (t : TripDoc) (stopsModified : Bool) :
    Except (List String) TripDoc :=
  if tripErrors t = [] then .ok (preSaveTrip now t stopsModified)
  else .error (tripErrors t)

/-! ### Migration stats (`scripts/migrate-to-new-schema.js` lines 107–122)

The script builds the `stats` block from the old trip's stops, then
overwrites `totalDistance` with
`migratedData.routes.reduce((total, route) => total + route.distance, 0)`.
The per-route `distance` values come from the haversine helper below; the
fold takes them as inputs here. -/

def migrateStats (stops : List StopInput) (routeDistances : List ℚ) : MigStats :=
  { totalDistance := routeDistances.foldl (· + ·) 0
    estimatedDuration := (stops.length : ℚ) * 60
    stopCount := stops.length
    averageStopDuration := 60
    transportModes := [("walking" : String)]
    difficultyLevel := ("easy" : String) }

/-! ### Legacy `length` backfill (`src/src/server.js` line 156)

The trip-summary transform of `GET /api/trips` reports
`length: trip.length || trip.estimatedDuration`; a JS `||` takes the
right operand whenever the left is falsy, and the number `0` is falsy. -/

def legacySummaryLength (length : Option ℚ) (estimatedDuration : Option ℚ) :
    Option ℚ :=
  match length with
  | some l => if l ≠ 0 then some l else estimatedDuration
  | none => estimatedDuration

/-! ### Add-stop endpoint (`POST /api/trips/:id/stops`,
`src/src/server.js` lines 234–257)

The handler builds
`{ ...req.body, id: Date.now() + trip.stops.length, tripId: req.params.id,
order: trip.stops.length + 1, createdAt, updatedAt }` and pushes it.  In a
JS object literal, keys written after a spread overwrite the spread's
values, so the caller's `id` / `order` / `tripId` (if any) are replaced by
the server-generated ones, while other body fields pass through (modelled
by `name`). -/

structure AddStopBody where
  id : Option Nat := none
  order : Option Nat := none
  name : Option String := none
deriving DecidableEq, Repr

structure ServerStop where
  id : Nat
  tripId : String
  order : Nat
  name : Option String
deriving DecidableEq, Repr

/-- The `newStop` object literal of the handler. -/
def buildNewStop (body : AddStopBody) (tripId : String) (stopCount : Nat)
    (now : Nat) : ServerStop :=
  { id := now + stopCount
    tripId := tripId
    order := stopCount + 1
    name := body.name }

/-- The endpoint's mutation: `trip.stops.push(newStop)`. -/
def addStopEndpoint (tripId : String) (stops : List ServerStop)
    (body : AddStopBody) (now : Nat) : List ServerStop :=
  stops ++ [buildNewStop body tripId stops.length now]

/-! ### Haversine helper (`calculateDistance`, `src/src/server.js` lines
485–497 and its identical copy in the migration script)

JS `Math.atan2(y, x)` for finite inputs; the signed-zero distinction of
IEEE floats is not observable through the branches used here (both
arguments are square roots, hence non-negative). -/

noncomputable def jsAtan2 (y x : ℝ) : ℝ :=
  if 0 < x then Real.arctan (y / x)
  else if x = 0 then
    (if 0 < y then Real.pi / 2 else if y < 0 then -(Real.pi / 2) else 0)
  else if 0 ≤ y then Real.arctan (y / x) + Real.pi
  else Real.arctan (y / x) - Real.pi

/-- Transcription of `calculateDistance(lat1, lon1, lat2, lon2)`:
Earth radius 6371 km, degree inputs converted to radians, result in
kilometers. -/
noncomputable def calculateDistance (lat1 lon1 lat2 lon2 : ℝ) : ℝ :=
  let R : ℝ := 6371
  let dLat := (lat2 - lat1) * Real.pi / 180
  let dLon := (lon2 - lon1) * Real.pi / 180
  let a := Real.sin (dLat / 2) * Real.sin (dLat / 2) +
    Real.cos (lat1 * Real.pi / 180) * Real.cos (lat2 * Real.pi / 180) *
      Real.sin (dLon / 2) * Real.sin (dLon / 2)
  let c := 2 * jsAtan2 (Real.sqrt a) (Real.sqrt (1 - a))
  R * c

/-! ### Concrete documents used by the refutations and witnesses -/

/-- Stats sub-record deliberately inconsistent with two stops. -/
def exStatsC1 : MigStats :=
  { totalDistance := 0
    estimatedDuration := 0
    stopCount := 99
    averageStopDuration := 7
    transportModes := []
    difficultyLevel := ("easy" : String) }

/-- A valid trip carrying two stops and the inconsistent stats above. -/
def exTripC1 : TripDoc :=
  { name := some ("t" : String)
    length := some 1
    stops := [{ name := some ("a" : String) }, { name := some ("b" : String) }]
    stats := some exStatsC1 }

/-- A trip whose single stop has latitude 91, outside `[-90, 90]`. -/
def exTripC8 : TripDoc :=
  { name := some ("t" : String)
    length := some 1
    stops := [{ name := some ("s" : String), lat := some 91, lng := some 0,
                plannedTime := some 5 }] }

/-! ## Claims -/

/-- C1, counterexample: the pre-save normalization of a trip carrying
two stops and a caller-supplied stats block with `stopCount = 99` stores
that stats block unchanged — the stored stats are not recomputed from
the current stops and routes. -/
theorem claim_C1_counterexample :
    (preSaveTrip 1000 exTripC1 true).stats = some exStatsC1 ∧
    exStatsC1.stopCount = 99 ∧
    (preSaveTrip 1000 exTripC1 true).stops.length = 2 := by
  refine ⟨rfl, rfl, rfl⟩

/-- C1, amended: no persistence-time recomputation of TripStats exists.
The only pre-save normalization (the stop-id hook) leaves the `stats`
field — and every trip field other than `stops` — exactly as supplied by
the caller. -/
theorem claim_C1_amended (now : Nat) (t : TripDoc) (m : Bool) :
    (preSaveTrip now t m).stats = t.stats ∧
    (preSaveTrip now t m).name = t.name ∧
    (preSaveTrip now t m).length = t.length := by
  unfold preSaveTrip
  split <;> exact ⟨rfl, rfl, rfl⟩

/-- C3, counterexample: with `Date.now() = 1000`, a trip whose first
stop already has id `1001` and whose second stop lacks an id gets the
second stop assigned id `1000 + 1 = 1001`, colliding with the
pre-existing stop id. -/
theorem claim_C3_counterexample :
    ([{ id := some 1001 }, {}] : List StopInput).map (fun s => s.id) =
      [some 1001, none] ∧
    (assignStopIds 1000 [{ id := some 1001 }, {}]).map (fun s => s.id) =
      [some 1001, some 1001] := by
  refine ⟨rfl, rfl⟩

/-- C4, counterexample: for a legacy trip with no stops the migration
stores `averageStopDuration = 60`, not `0`. -/
theorem claim_C4_counterexample :
    (migrateStats [] []).stopCount = 0 ∧
    (migrateStats [] []).averageStopDuration = 60 ∧
    (migrateStats [] []).averageStopDuration ≠ 0 := by
  refine ⟨rfl, rfl, by norm_num [migrateStats]⟩

/-- C4, amended: the migration always stores `averageStopDuration = 60`;
since it also stores `estimatedDuration = 60 · stopCount`, the equality
`averageStopDuration = estimatedDuration / stopCount` does hold whenever
`stopCount > 0` (for `stopCount = 0` the stored value is 60, not 0). -/
theorem claim_C4_amended (stops : List StopInput) (ds : List ℚ)
    (h : 0 < stops.length) :
    (migrateStats stops ds).averageStopDuration =
      (migrateStats stops ds).estimatedDuration /
        ((migrateStats stops ds).stopCount : ℚ) ∧
    (migrateStats stops ds).averageStopDuration = 60 := by
  have hne : ((stops.length : ℚ)) ≠ 0 := by
    exact_mod_cast Nat.pos_iff_ne_zero.mp h
  unfold migrateStats
  refine ⟨?_, rfl⟩
  simp only
  rw [mul_comm, mul_div_assoc, div_self hne, mul_one]

/-- C4, witness: the amended statement evaluated on a one-stop trip. -/
theorem claim_C4_witness :
    0 < ([({} : StopInput)]).length ∧
    ((migrateStats [({} : StopInput)] []).averageStopDuration =
      (migrateStats [({} : StopInput)] []).estimatedDuration /
        ((migrateStats [({} : StopInput)] []).stopCount : ℚ) ∧
    (migrateStats [({} : StopInput)] []).averageStopDuration = 60) :=
  ⟨by decide, claim_C4_amended [({} : StopInput)] [] (by decide)⟩

/-- C5, counterexample: a trip with `length = 0` (a value the schema
accepts: `min: 0`) and `estimatedDuration = 3` is reported with
`length = 3` — the truthiness-based backfill overwrites the
caller-supplied value `0`. -/
theorem claim_C5_counterexample :
    legacySummaryLength (some 0) (some 3) = some 3 ∧
    some (3 : ℚ) ≠ some (0 : ℚ) := by
  refine ⟨rfl, by norm_num⟩

/-- C5, amended: the summary backfill sets `length = estimatedDuration`
when `length` is absent and keeps any **non-zero** `length`; a stored
`length = 0` is treated as absent (JS falsiness) and replaced by
`estimatedDuration`. -/
theorem claim_C5_amended (l : ℚ) (ed : Option ℚ) (h : l ≠ 0) :
    legacySummaryLength (some l) ed = some l ∧
    legacySummaryLength none ed = ed := by
  unfold legacySummaryLength
  simp [h]

/-- C5, witness: the amended statement at `length = 5`,
`estimatedDuration = 3`. -/
theorem claim_C5_witness :
    (5 : ℚ) ≠ 0 ∧
    (legacySummaryLength (some 5) (some 3) = some 5 ∧
     legacySummaryLength none (some 3) = some 3) :=
  ⟨by norm_num, claim_C5_amended 5 (some 3) (by norm_num)⟩

/-- C10: the stop appended by the add-stop endpoint always carries the
server-generated identifiers — `id = Date.now() + (number of stops
before the insert)` and `order = (number of stops before the insert) + 1`
— and the result does not depend on any `id` or `order` the caller put
in the request body. -/
theorem claim_C10 (tid : String) (stops : List ServerStop) (now : Nat)
    (cid cord : Option Nat) (nm : Option String) :
    (∃ s, addStopEndpoint tid stops { id := cid, order := cord, name := nm } now
        = stops ++ [s] ∧
      s.id = now + stops.length ∧
      s.order = stops.length + 1 ∧
      s.tripId = tid) ∧
    addStopEndpoint tid stops { id := cid, order := cord, name := nm } now =
      addStopEndpoint tid stops { id := none, order := none, name := nm } now :=
  ⟨⟨buildNewStop { id := cid, order := cord, name := nm } tid stops.length now,
    rfl, rfl, rfl, rfl⟩, rfl⟩

/-! ## Reorder endpoint: supporting lemmas -/

/-- A successful `stopMap.get` returns one of the trip's stops, with the
requested id. -/
theorem stopMapGet_some {stops : List RStop} {i : Nat} {s : RStop}
    (h : stopMapGet stops i = some s) : s ∈ stops ∧ s.id = i := by
  unfold stopMapGet at h
  refine ⟨List.mem_reverse.mp (List.mem_of_find?_eq_some h), ?_⟩
  have := List.find?_some h
  simpa using this

/-- Every id that occurs among the trip's stop ids resolves in the map. -/
theorem stopMapGet_isSome {stops : List RStop} {i : Nat}
    (h : i ∈ stops.map (fun s => s.id)) : ∃ s, stopMapGet stops i = some s := by
  obtain ⟨s, hs, hid⟩ := List.mem_map.mp h
  have : (stopMapGet stops i).isSome = true := by
    unfold stopMapGet
    exact List.find?_isSome.mpr ⟨s, List.mem_reverse.mpr hs, by simp [hid]⟩
  exact Option.isSome_iff_exists.mp this

/-- The map lookup fails exactly for ids absent from the trip. -/
theorem stopMapGet_none {stops : List RStop} {i : Nat} :
    stopMapGet stops i = none ↔ i ∉ stops.map (fun s => s.id) := by
  unfold stopMapGet
  rw [List.find?_eq_none]
  constructor
  · intro h hmem
    obtain ⟨s, hs, hid⟩ := List.mem_map.mp hmem
    exact h s (List.mem_reverse.mpr hs) (by simp [hid])
  · intro h s hs hpred
    exact h (List.mem_map.mpr ⟨s, List.mem_reverse.mp hs,
      by simpa using hpred⟩)

/-- When every requested id resolves, the JS `map` succeeds and rebuilds
the stops in the requested id order, with `order` fields numbered from
`k + 1` onward; every rebuilt stop is one of the trip's stops with only
its `order` changed. -/
theorem reorderGo_ok (stops : List RStop) :
    ∀ (ids : List Nat) (k : Nat),
      (∀ i ∈ ids, i ∈ stops.map (fun s => s.id)) →
      ∃ res, reorderGo stops ids k = .ok res ∧
        res.map (fun s => s.id) = ids ∧
        res.map (fun s => s.order) = List.range' (k + 1) ids.length ∧
        ∀ s ∈ res, ∃ s₀ ∈ stops, s₀.id = s.id ∧ stopPayload s = stopPayload s₀ := by
  intro ids
  induction ids with
  | nil =>
    intro k _
    exact ⟨[], rfl, rfl, by simp, by simp⟩
  | cons i rest ih =>
    intro k h
    obtain ⟨s, hs⟩ := stopMapGet_isSome (h i (by simp))
    obtain ⟨hmem, hid⟩ := stopMapGet_some hs
    obtain ⟨tl, htl, hids, hords, hpay⟩ :=
      ih (k + 1) (fun j hj => h j (List.mem_cons_of_mem _ hj))
    refine ⟨{ s with order := k + 1 } :: tl, ?_, ?_, ?_, ?_⟩
    · simp [reorderGo, hs, htl]
    · simp [hids, hid]
    · simp [hords, List.range'_succ]
    · intro t ht
      rcases List.mem_cons.mp ht with h1 | h1
      · exact ⟨s, hmem, by simp [h1], by simp [h1, stopPayload]⟩
      · exact hpay t h1

/-- When some requested id does not resolve, the JS `map` throws on the
first such id. -/
theorem reorderGo_error (stops : List RStop) :
    ∀ (ids : List Nat) (k e : Nat),
      ids.find? (fun i => (stopMapGet stops i).isNone) = some e →
      reorderGo stops ids k = .error e := by
  intro ids
  induction ids with
  | nil =>
    intro k e h
    simp [List.find?] at h
  | cons i rest ih =>
    intro k e h
    by_cases hc : (stopMapGet stops i).isNone = true
    · rw [List.find?_cons_of_pos _ (by simpa using hc)] at h
      have hnone := Option.isNone_iff_eq_none.mp hc
      have : i = e := by simpa using h
      subst this
      simp [reorderGo, hnone]
    · rw [List.find?_cons_of_neg _ (by simpa using hc)] at h
      obtain ⟨s, hs⟩ : ∃ s, stopMapGet stops i = some s := by
        cases hmg : stopMapGet stops i with
        | none => rw [hmg] at hc; simp at hc
        | some s => exact ⟨s, rfl⟩
      simp [reorderGo, hs, ih k.succ e h]

/-- C2, counterexample: requesting the order `[1, 2]` on a trip whose
stops have ids `1, 2, 3` is a length-mismatched sequence (2 ≠ 3), yet
the operation succeeds — no error is reported and the persisted trip is
mutated to only two stops, silently dropping stop 3. -/
theorem claim_C2_counterexample :
    ([1, 2] : List Nat).length ≠
      ([⟨1, "a", 1⟩, ⟨2, "b", 2⟩, ⟨3, "c", 3⟩] : List RStop).length ∧
    reorderPersist [⟨1, "a", 1⟩, ⟨2, "b", 2⟩, ⟨3, "c", 3⟩] [1, 2] =
      ([⟨1, "a", 1⟩, ⟨2, "b", 2⟩], none) := by
  refine ⟨by decide, by decide⟩

/-- C2, amended: the reorder operation fails — reporting the first
unresolved id, with the persisted trip left unmodified — exactly when
some requested id is not among the trip's stop ids.  A request whose
length differs from the stop count but whose ids all resolve is *not*
rejected (it is applied, dropping or duplicating stops). -/
theorem claim_C2_amended (stops : List RStop) (ids : List Nat)
    (h : ∃ i ∈ ids, i ∉ stops.map (fun s => s.id)) :
    ∃ e, ids.find? (fun i => (stopMapGet stops i).isNone) = some e ∧
      e ∈ ids ∧ e ∉ stops.map (fun s => s.id) ∧
      reorderPersist stops ids = (stops, some e) := by
  obtain ⟨i, hi, hni⟩ := h
  have hsome : (ids.find? (fun i => (stopMapGet stops i).isNone)).isSome = true :=
    List.find?_isSome.mpr ⟨i, hi, by
      simp [Option.isNone_iff_eq_none, stopMapGet_none.mpr hni]⟩
  obtain ⟨e, he⟩ := Option.isSome_iff_exists.mp hsome
  have hpred := List.find?_some he
  have hnone : stopMapGet stops e = none :=
    Option.isNone_iff_eq_none.mp (by simpa using hpred)
  refine ⟨e, he, List.mem_of_find?_eq_some he, stopMapGet_none.mp hnone, ?_⟩
  unfold reorderPersist reorderStops
  rw [reorderGo_error stops ids 0 e he]

/-- C2, witness: the amended statement on a one-stop trip and the
unknown id 2. -/
theorem claim_C2_witness :
    ∃ e, ([2] : List Nat).find?
        (fun i => (stopMapGet [⟨1, "a", 1⟩] i).isNone) = some e ∧
      e ∈ ([2] : List Nat) ∧
      e ∉ ([⟨1, "a", 1⟩] : List RStop).map (fun s => s.id) ∧
      reorderPersist [⟨1, "a", 1⟩] [2] = ([⟨1, "a", 1⟩], some e) :=
  claim_C2_amended [⟨1, "a", 1⟩] [2] ⟨2, by decide, by decide⟩

/-- C6: when the requested id sequence is a permutation of the trip's
stop ids, the reorder endpoint succeeds and rebuilds the stops in
exactly that id order, each stop's `order` field being its 1-based
position, every rebuilt stop being one of the trip's stops with only its
`order` changed. -/
theorem claim_C6 (stops : List RStop) (ids : List Nat)
    (hperm : ids.Perm (stops.map (fun s => s.id))) :
    ∃ res, reorderStops stops ids = .ok res ∧
      res.map (fun s => s.id) = ids ∧
      res.map (fun s => s.order) = List.range' 1 ids.length ∧
      ∀ s ∈ res, ∃ s₀ ∈ stops, s₀.id = s.id ∧ stopPayload s = stopPayload s₀ := by
  have h := reorderGo_ok stops ids 0 (fun i hi => hperm.mem_iff.mp hi)
  simpa [reorderStops] using h

/-- C6, witness: reordering the three-stop trip `1, 2, 3` to `3, 1, 2`. -/
theorem claim_C6_witness :
    ∃ res, reorderStops [⟨1, "a", 1⟩, ⟨2, "b", 2⟩, ⟨3, "c", 3⟩] [3, 1, 2]
        = .ok res ∧
      res.map (fun s => s.id) = [3, 1, 2] ∧
      res.map (fun s => s.order) = List.range' 1 ([3, 1, 2] : List Nat).length ∧
      ∀ s ∈ res, ∃ s₀ ∈ ([⟨1, "a", 1⟩, ⟨2, "b", 2⟩, ⟨3, "c", 3⟩] : List RStop),
        s₀.id = s.id ∧ stopPayload s = stopPayload s₀ :=
  claim_C6 [⟨1, "a", 1⟩, ⟨2, "b", 2⟩, ⟨3, "c", 3⟩] [3, 1, 2] (by decide)

/-! ## Delete endpoint: supporting lemmas -/

/-- The renumbering pass keeps every stop's payload and sequence
position, and writes `order` values `k + 1, k + 2, …`. -/
theorem renumberGo_spec :
    ∀ (l : List RStop) (k : Nat),
      (renumberGo k l).map stopPayload = l.map stopPayload ∧
      (renumberGo k l).map (fun s => s.order) = List.range' (k + 1) l.length := by
  intro l
  induction l with
  | nil => intro k; exact ⟨rfl, by simp [renumberGo]⟩
  | cons s rest ih =>
    intro k
    obtain ⟨h1, h2⟩ := ih (k + 1)
    constructor
    · simp [renumberGo, h1, stopPayload]
    · simp [renumberGo, h2, List.range'_succ]

/-- A found index is inside the array. -/
theorem jsFindIndex_lt :
    ∀ (l : List RStop) (p : RStop → Bool) (idx : Nat),
      jsFindIndex p l = some idx → idx < l.length := by
  intro l
  induction l with
  | nil => intro p idx h; simp [jsFindIndex] at h
  | cons s rest ih =>
    intro p idx h
    by_cases hp : p s
    · simp [jsFindIndex, hp] at h
      simp only [List.length_cons]
      omega
    · simp [jsFindIndex, hp] at h
      obtain ⟨m, hm, hidx⟩ := h
      have := ih p m hm
      simp only [List.length_cons]
      omega

/-- Splicing one element out shortens the array by one. -/
theorem spliceOne_length :
    ∀ (l : List RStop) (n : Nat), n < l.length →
      (spliceOne l n).length = l.length - 1 := by
  intro l
  induction l with
  | nil => intro n h; simp at h
  | cons s rest ih =>
    intro n h
    cases n with
    | zero => simp [spliceOne]
    | succ m =>
      have hm : m < rest.length := by simpa using h
      simp [spliceOne, ih m hm]
      omega

/-- A splice is the concatenation of the prefix before the index and the
suffix after it: all remaining elements keep their relative order. -/
theorem spliceOne_eq_take_drop :
    ∀ (l : List RStop) (n : Nat),
      spliceOne l n = l.take n ++ l.drop (n + 1) := by
  intro l
  induction l with
  | nil => intro n; simp [spliceOne]
  | cons s rest ih =>
    intro n
    cases n with
    | zero => simp [spliceOne]
    | succ m => simp [spliceOne, ih m]

/-- C7: deleting a present stop removes exactly the first stop with the
requested id and renumbers the rest: the remaining stops are the
original prefix and suffix around the deleted index, in their previous
relative order (same payload sequence), and their `order` fields are
`1, 2, …, n − 1`. -/
theorem claim_C7 (stops : List RStop) (sid idx : Nat)
    (h : jsFindIndex (fun s => s.id = sid) stops = some idx) :
    ∃ res, deleteStop stops sid = some res ∧
      res.map stopPayload =
        (stops.take idx ++ stops.drop (idx + 1)).map stopPayload ∧
      res.map (fun s => s.order) = List.range' 1 (stops.length - 1) := by
  have hlt := jsFindIndex_lt stops _ idx h
  obtain ⟨h1, h2⟩ := renumberGo_spec (spliceOne stops idx) 0
  refine ⟨renumberStops (spliceOne stops idx), by simp [deleteStop, h], ?_, ?_⟩
  · rw [renumberStops, h1, spliceOne_eq_take_drop]
  · rw [renumberStops, h2, spliceOne_length stops idx hlt]

/-- C7, witness: deleting the middle stop (id 2) of a three-stop trip
with orders `1, 2, 3` leaves the first and third stops with orders
`1, 2`. -/
theorem claim_C7_witness :
    (jsFindIndex (fun s => s.id = 2)
        [⟨1, "a", 1⟩, ⟨2, "b", 2⟩, ⟨3, "c", 3⟩] = some 1) ∧
    ∃ res, deleteStop [⟨1, "a", 1⟩, ⟨2, "b", 2⟩, ⟨3, "c", 3⟩] 2 = some res ∧
      res.map stopPayload =
        (([⟨1, "a", 1⟩, ⟨2, "b", 2⟩, ⟨3, "c", 3⟩] : List RStop).take 1 ++
          ([⟨1, "a", 1⟩, ⟨2, "b", 2⟩, ⟨3, "c", 3⟩] : List RStop).drop 2).map
            stopPayload ∧
      res.map (fun s => s.order) =
        List.range' 1 (([⟨1, "a", 1⟩, ⟨2, "b", 2⟩, ⟨3, "c", 3⟩] : List RStop).length - 1) :=
  ⟨by decide, claim_C7 [⟨1, "a", 1⟩, ⟨2, "b", 2⟩, ⟨3, "c", 3⟩] 2 1 (by decide)⟩

/-! ## Pre-save id hook: supporting lemma -/

/-- A stop with a missing (absent or zero) id at position `i` of the
remaining array gets id `now + k + i`, where `k` is the number of stops
already processed. -/
theorem assignIdsGo_id_of_missing (now : Nat) :
    ∀ (stops : List StopInput) (k i : Nat) (hi : i < stops.length),
      jsIdMissing (stops.get ⟨i, hi⟩).id = true →
      ((assignIdsGo now k stops).get? i).map StopInput.id =
        some (some (now + k + i)) := by
  intro stops
  induction stops with
  | nil => intro k i hi; simp at hi
  | cons s rest ih =>
    intro k i hi hmiss
    cases i with
    | zero =>
      simp only [List.get] at hmiss
      simp [assignIdsGo, hmiss]
    | succ m =>
      have hm : m < rest.length := by simpa using hi
      have := ih (k + 1) m hm (by simpa using hmiss)
      simp only [assignIdsGo, List.get?]
      rw [this]
      congr 2
      omega

/-- C3, amended: all ids assigned within a single pre-save pass are
pairwise distinct — two id-less stops at distinct positions `i` and `j`
receive `now + i` and `now + j` — but (per the counterexample) such an
id may coincide with a pre-existing stop id on the same trip. -/
theorem claim_C3_amended (now : Nat) (stops : List StopInput) (i j : Nat)
    (hi : i < stops.length) (hj : j < stops.length) (hij : i ≠ j)
    (hmi : jsIdMissing (stops.get ⟨i, hi⟩).id = true)
    (hmj : jsIdMissing (stops.get ⟨j, hj⟩).id = true) :
    ((assignStopIds now stops).get? i).map StopInput.id = some (some (now + i)) ∧
    ((assignStopIds now stops).get? j).map StopInput.id = some (some (now + j)) ∧
    now + i ≠ now + j := by
  have h1 := assignIdsGo_id_of_missing now stops 0 i hi hmi
  have h2 := assignIdsGo_id_of_missing now stops 0 j hj hmj
  refine ⟨by simpa [assignStopIds] using h1, by simpa [assignStopIds] using h2, ?_⟩
  omega

/-- C3, witness: two id-less stops assigned in one pass at
`Date.now() = 1000` get the distinct ids 1000 and 1001. -/
theorem claim_C3_witness :
    ((assignStopIds 1000 [{}, {}]).get? 0).map StopInput.id =
        some (some 1000) ∧
    ((assignStopIds 1000 [{}, {}]).get? 1).map StopInput.id =
        some (some 1001) ∧
    (1000 + 0 ≠ 1000 + 1) := by
  have h := claim_C3_amended 1000 [{}, {}] 0 1 (by decide) (by decide)
    (by decide) (by decide) (by decide)
  simpa using h

/-! ## Validation: supporting lemma -/

/-- A failing field of the stop at position `i` of the remaining array
contributes the path `stops.(k + i).field` to the collected errors,
where `k` is the index of the first remaining stop. -/
theorem mem_stopsErrorsGo :
    ∀ (stops : List StopInput) (k i : Nat) (hi : i < stops.length)
      (f : String),
      f ∈ stopFieldErrors (stops.get ⟨i, hi⟩) →
      stopPath (k + i) f ∈ stopsErrorsGo k stops := by
  intro stops
  induction stops with
  | nil => intro k i hi; simp at hi
  | cons s rest ih =>
    intro k i hi f hf
    cases i with
    | zero =>
      simp only [List.get] at hf
      simp only [stopsErrorsGo, Nat.add_zero, List.mem_append]
      exact Or.inl (List.mem_map.mpr ⟨f, hf, rfl⟩)
    | succ m =>
      have hm : m < rest.length := by simpa using hi
      have := ih (k + 1) m hm f (by simpa using hf)
      simp only [stopsErrorsGo, List.mem_append]
      refine Or.inr ?_
      have harith : k + (m + 1) = (k + 1) + m := by omega
      rw [harith]
      exact this

/-- Any stop field violation puts its field name into that stop's error
list (stated over an arbitrary stop so the match scrutinees reduce). -/
theorem mem_stopFieldErrors {s : StopInput} {f : String}
    (h : (f = "lat" ∧ (s.lat = none ∨ ∃ v, s.lat = some v ∧ (v < -90 ∨ 90 < v)))
      ∨ (f = "lng" ∧ (s.lng = none ∨ ∃ v, s.lng = some v ∧ (v < -180 ∨ 180 < v)))
      ∨ (f = "name" ∧ s.name = none)
      ∨ (f = "plannedTime" ∧ s.plannedTime = none)) :
    f ∈ stopFieldErrors s := by
  rcases h with ⟨hf, hlat⟩ | ⟨hf, hlng⟩ | ⟨hf, hname⟩ | ⟨hf, hpt⟩
  · subst hf
    rcases hlat with h | ⟨v, h, hbad⟩
    · simp [stopFieldErrors, h]
    · have hcond : (if v < -90 ∨ 90 < v then (["lat"] : List String) else [])
          = ["lat"] := if_pos hbad
      simp [stopFieldErrors, h, hcond]
  · subst hf
    rcases hlng with h | ⟨v, h, hbad⟩
    · simp [stopFieldErrors, h]
    · have hcond : (if v < -180 ∨ 180 < v then (["lng"] : List String) else [])
          = ["lng"] := if_pos hbad
      simp [stopFieldErrors, h, hcond]
  · subst hf
    simp [stopFieldErrors, hname]
  · subst hf
    simp [stopFieldErrors, hpt]

/-- C8: any violation of a schema constraint — a required field that is
absent, or a numeric field outside its declared range (`lat` outside
`[-90, 90]`, `lng` outside `[-180, 180]`, `length` below 0) — puts the
violated field's path into the collected validation errors, and whenever
that collection is non-empty the save is rejected whole, reporting
exactly those paths (nothing is silently dropped or truncated; the
schema declares no enum field, so no enum violation can arise). -/
theorem claim_C8 (t : TripDoc) (now : Nat) (m : Bool) :
    (tripErrors t ≠ [] → saveValidated now t m = .error (tripErrors t)) ∧
    (∀ i (hi : i < t.stops.length),
      ((t.stops.get ⟨i, hi⟩).lat = none → stopPath i "lat" ∈ tripErrors t) ∧
      (∀ v : ℚ, (t.stops.get ⟨i, hi⟩).lat = some v → v < -90 ∨ 90 < v →
        stopPath i "lat" ∈ tripErrors t) ∧
      ((t.stops.get ⟨i, hi⟩).lng = none → stopPath i "lng" ∈ tripErrors t) ∧
      (∀ v : ℚ, (t.stops.get ⟨i, hi⟩).lng = some v → v < -180 ∨ 180 < v →
        stopPath i "lng" ∈ tripErrors t) ∧
      ((t.stops.get ⟨i, hi⟩).name = none → stopPath i "name" ∈ tripErrors t) ∧
      ((t.stops.get ⟨i, hi⟩).plannedTime = none →
        stopPath i "plannedTime" ∈ tripErrors t)) ∧
    (t.name = none → "name" ∈ tripErrors t) ∧
    (t.length = none → "length" ∈ tripErrors t) ∧
    (∀ v : ℚ, t.length = some v → v < 0 → "length" ∈ tripErrors t) := by
  have hstop : ∀ i (hi : i < t.stops.length) (f : String),
      f ∈ stopFieldErrors (t.stops.get ⟨i, hi⟩) → stopPath i f ∈ tripErrors t := by
    intro i hi f hf
    have := mem_stopsErrorsGo t.stops 0 i hi f hf
    simp only [Nat.zero_add] at this
    simp only [tripErrors, List.mem_append]
    exact Or.inr this
  have htrip : ∀ f : String, f ∈ tripFieldErrors t → f ∈ tripErrors t := by
    intro f hf
    simp only [tripErrors, List.mem_append]
    exact Or.inl hf
  refine ⟨?_, ?_, ?_, ?_, ?_⟩
  · intro h
    unfold saveValidated
    rw [if_neg h]
  · intro i hi
    refine ⟨?_, ?_, ?_, ?_, ?_, ?_⟩
    · intro h
      exact hstop i hi _ (mem_stopFieldErrors (Or.inl ⟨rfl, Or.inl h⟩))
    · intro v h hbad
      exact hstop i hi _
        (mem_stopFieldErrors (Or.inl ⟨rfl, Or.inr ⟨v, h, hbad⟩⟩))
    · intro h
      exact hstop i hi _
        (mem_stopFieldErrors (Or.inr (Or.inl ⟨rfl, Or.inl h⟩)))
    · intro v h hbad
      exact hstop i hi _
        (mem_stopFieldErrors (Or.inr (Or.inl ⟨rfl, Or.inr ⟨v, h, hbad⟩⟩)))
    · intro h
      exact hstop i hi _
        (mem_stopFieldErrors (Or.inr (Or.inr (Or.inl ⟨rfl, h⟩))))
    · intro h
      exact hstop i hi _
        (mem_stopFieldErrors (Or.inr (Or.inr (Or.inr ⟨rfl, h⟩))))
  · intro h
    exact htrip _ (by simp [tripFieldErrors, h])
  · intro h
    exact htrip _ (by simp [tripFieldErrors, h])
  · intro v h hbad
    refine htrip _ ?_
    have hcond : (if v < 0 then (["length"] : List String) else [])
        = ["length"] := if_pos hbad
    simp [tripFieldErrors, h, hcond]

/-- C8, witness: a trip whose single stop has latitude 91 is rejected
whole, with the path `stops.0.lat` among the reported errors. -/
theorem claim_C8_witness :
    stopPath 0 "lat" ∈ tripErrors exTripC8 ∧
    saveValidated 1 exTripC8 true = .error (tripErrors exTripC8) := by
  have h := claim_C8 exTripC8 1 true
  refine ⟨(h.2.1 0 (by decide)).2.1 91 (by decide) (by norm_num), h.1 (by decide)⟩

/-! ## Haversine helper: supporting lemmas -/

/-- Arctangent of a non-negative argument is non-negative. -/
theorem arctan_nonneg_of_nonneg {t : ℝ} (ht : 0 ≤ t) : 0 ≤ Real.arctan t := by
  have h := Real.arctan_strictMono.monotone ht
  simpa [Real.arctan_zero] using h

/-- With both arguments non-negative (as the two square roots of the
haversine formula always are), `Math.atan2` lands in `[0, π/2]`; in
particular it is non-negative. -/
theorem jsAtan2_nonneg {y x : ℝ} (hy : 0 ≤ y) (hx : 0 ≤ x) :
    0 ≤ jsAtan2 y x := by
  unfold jsAtan2
  split_ifs with h1 h2 h3 h4
  · exact arctan_nonneg_of_nonneg (div_nonneg hy h1.le)
  · linarith [Real.pi_pos]
  · linarith
  · exact le_refl 0
  all_goals
    rcases lt_or_eq_of_le hx with h | h
    · exact absurd h h1
    · exact absurd h.symm h2

/-- C9: the haversine helper (Earth radius 6371, degree inputs) returns
a non-negative value for every input pair, exactly 0 for two identical
points, and exactly `π · 6371` (kilometers, i.e. approximately π times
the Earth radius) for the antipodal pair (0°, 0°) and (0°, 180°). -/
theorem claim_C9 :
    (∀ lat1 lon1 lat2 lon2 : ℝ, 0 ≤ calculateDistance lat1 lon1 lat2 lon2) ∧
    (∀ lat lon : ℝ, calculateDistance lat lon lat lon = 0) ∧
    calculateDistance 0 0 0 180 = 6371 * Real.pi := by
  refine ⟨?_, ?_, ?_⟩
  · intro lat1 lon1 lat2 lon2
    unfold calculateDistance
    dsimp only
    apply mul_nonneg (by norm_num)
    apply mul_nonneg (by norm_num)
    exact jsAtan2_nonneg (Real.sqrt_nonneg _) (Real.sqrt_nonneg _)
  · intro lat lon
    unfold calculateDistance
    dsimp only
    simp [jsAtan2, Real.sqrt_one, Real.arctan_zero]
  · unfold calculateDistance
    dsimp only
    have h180 : ((180 : ℝ) - 0) * Real.pi / 180 = Real.pi := by
      field_simp
    rw [h180]
    norm_num [Real.sin_pi_div_two, Real.cos_zero]
    rw [show jsAtan2 1 0 = Real.pi / 2 by
      unfold jsAtan2
      rw [if_neg (lt_irrefl 0), if_pos rfl, if_pos one_pos]]
    ring
